import Mathlib

/-!
# Verification of `ml_tooling` (target-feature distribution plot, SQL dataset)

Shallow embedding of the two source files:

* `src/ml_tooling/plots/target_feature_distribution.py` — the function
  `plot_target_feature_distribution`.  Its computational core (validation,
  category enumeration, per-category aggregates, bootstrap confidence
  intervals) is embedded; the trailing matplotlib calls (`_plot_barh`,
  `axvline`) only render the computed artifacts and carry no data of
  their own.
* `src/ml_tooling/data/sql.py` — `SQLDataSet.__init__`.

Arrays are lists of `PyVal`: a numpy entry is a finite float (modelled
exactly as `ℚ`), the float NaN, or a string label.  A numpy array holding
any string has a non-numeric dtype, on which `np.isnan` raises
`TypeError`; an array that holds an actual NaN is a float array.
Randomness (`np.random.choice`) is made explicit as an oracle
`draws : ℕ → ℕ` giving the sequence of drawn indices.
-/

namespace MlTooling

/-- An entry of a numpy array as the code receives it. -/
inductive PyVal where
  | num : ℚ → PyVal
  | nan : PyVal
  | str : String → PyVal
deriving DecidableEq, Repr

/-- The ways a call observed in the source can fail. -/
inductive PyErr where
  /-- `np.isnan` applied to a non-numeric (string-holding) array. -/
  | typeError : PyErr
  /-- `VizError`: NaN values in target or feature (lines 48–52). -/
  | vizErrorNaN : PyErr
  /-- `VizError "Should there be a limit"`: more than 15 categories (lines 63–64). -/
  | vizErrorTooManyCategories : PyErr
  /-- `agg_func_mapping[method]` with an unrecognized key (line 59). -/
  | keyError : PyErr
  /-- `ValueError "Invalid connection"` in `SQLDataSet.__init__`. -/
  | valueError : PyErr
deriving DecidableEq, Repr

/-- The entry is one `np.isnan` accepts (numeric dtype). -/
def PyVal.isNumeric : PyVal → Bool
  | .str _ => false
  | _ => true

/-- The entry is the float NaN. -/
def PyVal.isNan : PyVal → Bool
  | .nan => true
  | _ => false

/-- The entry is a finite number. -/
def PyVal.isNum : PyVal → Bool
  | .num _ => true
  | _ => false

/-- The numeric value of an entry (meaningful on `num` entries, which are
the only ones reaching the arithmetic after the NaN check). -/
def PyVal.toRat : PyVal → ℚ
  | .num q => q
  | _ => 0

/-- `np.isnan(xs)`: elementwise NaN test; raises `TypeError` when the
array's dtype is not numeric (it holds a string). -/
def np_isnan (xs : List PyVal) : Except PyErr (List Bool) :=
  if xs.all PyVal.isNumeric then .ok (xs.map PyVal.isNan) else .error .typeError

/-- The order `np.unique` sorts by: numbers by value, strings
lexicographically, NaN after every number.  Only the all-numeric and
all-string cases are reachable (numpy arrays are homogeneous). -/
def PyVal.le : PyVal → PyVal → Prop
  | .num a, .num b => a ≤ b
  | .num _, .nan => True
  | .num _, .str _ => True
  | .nan, .num _ => False
  | .nan, .nan => True
  | .nan, .str _ => True
  | .str _, .num _ => False
  | .str _, .nan => False
  | .str a, .str b => a ≤ b

instance : DecidableRel PyVal.le := fun a b =>
  match a, b with
  | .num a, .num b => inferInstanceAs (Decidable (a ≤ b))
  | .num _, .nan => inferInstanceAs (Decidable True)
  | .num _, .str _ => inferInstanceAs (Decidable True)
  | .nan, .num _ => inferInstanceAs (Decidable False)
  | .nan, .nan => inferInstanceAs (Decidable True)
  | .nan, .str _ => inferInstanceAs (Decidable True)
  | .str _, .num _ => inferInstanceAs (Decidable False)
  | .str _, .nan => inferInstanceAs (Decidable False)
  | .str a, .str b => inferInstanceAs (Decidable (a ≤ b))

instance : IsTotal PyVal PyVal.le where
  total a b := by
    cases a <;> cases b <;> simp [PyVal.le] <;> exact le_total _ _

instance : IsTrans PyVal PyVal.le where
  trans a b c hab hbc := by
    cases a <;> cases b <;> cases c <;> simp_all [PyVal.le] <;> exact hab.trans hbc

/-- `np.unique(xs)`: the distinct values of `xs` in ascending sorted order. -/
def np_unique (xs : List PyVal) : List PyVal :=
  List.insertionSort PyVal.le xs.dedup

/-- `np.mean`: the arithmetic mean, the sum divided by the length. -/
def npMean (xs : List ℚ) : ℚ := xs.sum / xs.length

/-- The ascending sort used inside `np.median` and `np.percentile`. -/
def npSort (xs : List ℚ) : List ℚ := List.insertionSort (· ≤ ·) xs

/-- `np.median`: the middle element of the sorted data, or the mean of the
two middle elements when the length is even. -/
def npMedian (xs : List ℚ) : ℚ :=
  let b := npSort xs
  let n := xs.length
  if n % 2 = 1 then b.getD (n / 2) 0
  else (b.getD (n / 2 - 1) 0 + b.getD (n / 2) 0) / 2

/-- The two entries of `agg_func_mapping = {"mean": np.mean, "median": np.median}`. -/
inductive AggFunc where
  | mean : AggFunc
  | median : AggFunc
deriving DecidableEq, Repr

/-- Apply the selected aggregation function. -/
def AggFunc.apply : AggFunc → List ℚ → ℚ
  | .mean, xs => npMean xs
  | .median, xs => npMedian xs

/-- `agg_func_mapping[method]`: dictionary lookup; an unknown key raises
`KeyError`. -/
def agg_func_mapping (method : String) : Except PyErr AggFunc :=
  if method = "mean" then .ok .mean
  else if method = "median" then .ok .median
  else .error .keyError

/-- `target[feature == category]` for index-aligned arrays, with the
selected entries read as numbers: the target entries whose aligned feature
entry equals `category`. -/
def maskSelect (target feature : List PyVal) (category : PyVal) : List ℚ :=
  ((target.zip feature).filter (fun p => decide (p.2 = category))).map
    (fun p => p.1.toRat)

/-- `np.percentile(xs, q)` with the default linear interpolation: with the
data sorted ascending as `b` and `h = (n-1)·q/100`, the value
`b[lo] + (h - lo)·(b[lo+1] - b[lo])` where `lo = ⌊h⌋`. -/
def npPercentile (xs : List ℚ) (q : ℚ) : ℚ :=
  let b := npSort xs
  let h : ℚ := ((xs.length : ℚ) - 1) * q / 100
  let lo : ℕ := (⌊h⌋).toNat
  let frac : ℚ := h - (lo : ℚ)
  b.getD lo 0 + frac * (b.getD (lo + 1) (b.getD lo 0) - b.getD lo 0)

/-- `np.random.choice(data, size=k, replace=True)` with the random draws
supplied by the oracle `draws`: the `j`-th of the `k` samples is the entry
at index `draws (off + j)`, reduced mod the data's length so that every
oracle names a valid entry.  `off` counts the draws already consumed by
earlier calls in the same run. -/
def npRandomChoice (data : List ℚ) (k : ℕ) (draws : ℕ → ℕ) (off : ℕ) : List ℚ :=
  (List.range k).map (fun j => data.getD (draws (off + j) % data.length) 0)

/-- Column `j` of the row-major `(s, nBoots)` reshape of `flat`
(`boots_sample.reshape((data_temp.shape[0], -1))`). -/
def reshapeColumn (flat : List ℚ) (nBoots s j : ℕ) : List ℚ :=
  (List.range s).map (fun r => flat.getD (r * nBoots + j) 0)

/-- `np.mean(boots_sample, axis=0)`: the mean of each of the `nBoots`
columns of the reshaped sample matrix. -/
def columnMeans (flat : List ℚ) (nBoots s : ℕ) : List ℚ :=
  (List.range nBoots).map (fun j => npMean (reshapeColumn flat nBoots s j))

/-- The body of the bootstrap loop for one category: draw
`n_boots * data_temp.shape[0]` samples with replacement, reshape to
`(data_temp.shape[0], n_boots)` row-major, take the mean over axis 0, and
return `np.percentile(boots_temp, (2.5, 97.5))`. -/
def bootInterval (data_temp : List ℚ) (nBoots : ℕ) (draws : ℕ → ℕ) (off : ℕ) :
    ℚ × ℚ :=
  let boots_sample := npRandomChoice data_temp (nBoots * data_temp.length) draws off
  let boots_temp := columnMeans boots_sample nBoots data_temp.length
  (npPercentile boots_temp (5/2), npPercentile boots_temp (195/2))

/-- The bootstrap loop over the categories in order, consuming the draw
oracle sequentially. -/
def bootIntervals (target feature : List PyVal) (cats : List PyVal)
    (nBoots : ℕ) (draws : ℕ → ℕ) (off : ℕ) : List (ℚ × ℚ) :=
  match cats with
  | [] => []
  | c :: rest =>
      let data_temp := maskSelect target feature c
      bootInterval data_temp nBoots draws off ::
        bootIntervals target feature rest nBoots draws
          (off + nBoots * data_temp.length)

/-- The data artifacts `plot_target_feature_distribution` computes before
handing them to matplotlib: the categories, the per-category aggregates
(`data`), and the per-category interval bounds when `n_boots` is given. -/
structure AggResult where
  feature_categories : List PyVal
  data : List ℚ
  percentile : Option (List (ℚ × ℚ))
deriving DecidableEq, Repr

/-- The aggregation core of `plot_target_feature_distribution(target,
feature, title, method, ax, n_boots)`.  `n_boots = 0` stands for the
default `n_boots=None` (`if n_boots:` is false for both).  `draws` is the
random oracle feeding `np.random.choice`.  The steps, in source order:
the NaN check with Python's short-circuiting `or`, the
`agg_func_mapping[method]` lookup, `np.unique`, the 15-category ceiling,
the per-category aggregates, and the optional bootstrap loop. -/
def plot_target_feature_distribution (target feature : List PyVal)
    (method : String) (n_boots : ℕ) (draws : ℕ → ℕ) :
    Except PyErr AggResult :=
  match np_isnan target with
  | .error e => .error e
  | .ok target_nan =>
    if target_nan.any id then
      .error .vizErrorNaN
    else
      match np_isnan feature with
      | .error e => .error e
      | .ok feature_nan =>
        if feature_nan.any id then
          .error .vizErrorNaN
        else
          match agg_func_mapping method with
          | .error e => .error e
          | .ok selected_agg_func =>
            let feature_categories := np_unique feature
            if feature_categories.length > 15 then
              .error .vizErrorTooManyCategories
            else
              let data := feature_categories.map
                (fun category =>
                  selected_agg_func.apply (maskSelect target feature category))
              let percentile :=
                if n_boots ≠ 0 then
                  some (bootIntervals target feature feature_categories n_boots draws 0)
                else
                  none
              .ok ⟨feature_categories, data, percentile⟩

/-- An abstract pre-built SQLAlchemy `Connectable` handle. -/
structure Connectable where
  handle : ℕ
deriving DecidableEq, Repr

/-- The values a caller can pass to `SQLDataSet.__init__` as `conn`:
a pre-built `Connectable`, a connection string, or anything else. -/
inductive Conn where
  | connectable : Connectable → Conn
  | connString : String → Conn
  | other : ℕ → Conn
deriving DecidableEq, Repr

/-- The engine an `SQLDataSet` holds after construction: the `conn`
argument itself stored unchanged, or a fresh engine built by
`sa.create_engine(conn, **engine_kwargs)`. -/
inductive Engine where
  | stored : Connectable → Engine
  | created : String → List (String × String) → Engine
deriving DecidableEq, Repr

/-- An `SQLDataSet` instance as `__init__` leaves it. -/
structure SQLDataSet where
  engine : Engine
deriving DecidableEq, Repr

/-- `SQLDataSet.__init__(self, conn, **engine_kwargs)`: a `Connectable` is
stored as the engine unchanged; a string is passed to
`sa.create_engine`; anything else raises `ValueError("Invalid connection")`. -/
def SQLDataSet.init (conn : Conn) (engine_kwargs : List (String × String)) :
    Except PyErr SQLDataSet :=
  match conn with
  | .connectable c => .ok ⟨.stored c⟩
  | .connString s => .ok ⟨.created s engine_kwargs⟩
  | .other _ => .error .valueError

/-! ## Basic facts about the embedded operations -/

theorem PyVal.isNumeric_of_isNum {v : PyVal} (h : v.isNum = true) :
    v.isNumeric = true := by
  cases v <;> simp_all [PyVal.isNum, PyVal.isNumeric]

theorem PyVal.isNan_eq_false_of_isNum {v : PyVal} (h : v.isNum = true) :
    v.isNan = false := by
  cases v <;> simp_all [PyVal.isNum, PyVal.isNan]

theorem np_isnan_of_numericDtype {xs : List PyVal}
    (h : xs.all PyVal.isNumeric = true) :
    np_isnan xs = .ok (xs.map PyVal.isNan) := by
  simp [np_isnan, h]

theorem np_isnan_map_any (xs : List PyVal) :
    (xs.map PyVal.isNan).any id = xs.any PyVal.isNan := by
  induction xs with
  | nil => rfl
  | cons v t ih => simp [ih]

theorem all_num_numericDtype {xs : List PyVal} (h : xs.all PyVal.isNum = true) :
    xs.all PyVal.isNumeric = true := by
  simp only [List.all_eq_true] at h ⊢
  exact fun v hv => PyVal.isNumeric_of_isNum (h v hv)

theorem all_num_no_nan {xs : List PyVal} (h : xs.all PyVal.isNum = true) :
    xs.any PyVal.isNan = false := by
  simp only [List.all_eq_true] at h
  simp only [List.any_eq_false]
  intro v hv
  simp [PyVal.isNan_eq_false_of_isNum (h v hv)]

/-- Evaluation of the embedded call on numeric, NaN-free inputs with a
recognized method and at most 15 categories: it returns the categories,
their aggregates, and the bootstrap intervals when `n_boots` is nonzero. -/
theorem plot_run_ok {target feature : List PyVal} {method : String} {f : AggFunc}
    (ht : target.all PyVal.isNum = true) (hf : feature.all PyVal.isNum = true)
    (hm : agg_func_mapping method = .ok f)
    (hcats : (np_unique feature).length ≤ 15)
    (n_boots : ℕ) (draws : ℕ → ℕ) :
    plot_target_feature_distribution target feature method n_boots draws =
      .ok ⟨np_unique feature,
           (np_unique feature).map
             (fun c => f.apply (maskSelect target feature c)),
           if n_boots ≠ 0 then
             some (bootIntervals target feature (np_unique feature) n_boots draws 0)
           else none⟩ := by
  unfold plot_target_feature_distribution
  rw [np_isnan_of_numericDtype (all_num_numericDtype ht),
      np_isnan_of_numericDtype (all_num_numericDtype hf), hm]
  simp [np_isnan_map_any, all_num_no_nan ht, all_num_no_nan hf,
    Nat.not_lt.mpr hcats]

/-! ## Claims about validation and error handling -/

theorem np_isnan_ok_shape {xs : List PyVal} {l : List Bool}
    (h : np_isnan xs = .ok l) : l = xs.map PyVal.isNan := by
  unfold np_isnan at h
  split at h
  · injection h with h'
    exact h'.symm
  · simp at h

/-- C3 (counterexample): a string-categorical feature containing a missing
value — an object-dtype array, the spec's canonical categorical case — is
rejected by `np.isnan` with a `TypeError`, not with the NaN validation
error the claim promises for every NaN-bearing input. -/
theorem C3_nan_with_strings_cex :
    plot_target_feature_distribution [.num 1, .num 2] [.str "a", .nan]
        "mean" 0 (fun _ => 0) = .error .typeError ∧
      plot_target_feature_distribution [.num 1, .num 2] [.str "a", .nan]
        "mean" 0 (fun _ => 0) ≠ .error .vizErrorNaN := by
  refine ⟨rfl, fun h => ?_⟩
  rw [show plot_target_feature_distribution [.num 1, .num 2] [.str "a", .nan]
      "mean" 0 (fun _ => 0) = .error .typeError from rfl] at h
  injection h with h'
  exact PyErr.noConfusion h'

/-- C3 (amended): on float-dtype arrays the claim holds — NaN in the
target fails immediately with the NaN `VizError` whatever the feature
array, the method string, the bootstrap setting and the category count;
likewise NaN in a float feature when the target is numeric and NaN-free.
And every input in which target or feature contains NaN at all still
fails with some error before producing a result — only, for
string-bearing arrays, with `np.isnan`'s `TypeError` instead of the
validation error. -/
theorem C3_nan_validation (target feature : List PyVal) (method : String)
    (n_boots : ℕ) (draws : ℕ → ℕ) :
    ((target.all PyVal.isNumeric = true ∧ target.any PyVal.isNan = true) ∨
      (target.all PyVal.isNum = true ∧ feature.all PyVal.isNumeric = true ∧
        feature.any PyVal.isNan = true) →
      plot_target_feature_distribution target feature method n_boots draws =
        .error .vizErrorNaN) ∧
    (target.any PyVal.isNan = true ∨ feature.any PyVal.isNan = true →
      ∃ e, plot_target_feature_distribution target feature method n_boots draws
        = .error e) := by
  constructor
  · intro h
    unfold plot_target_feature_distribution
    rcases h with ⟨h1, h2⟩ | ⟨h1, h2, h3⟩
    · rw [np_isnan_of_numericDtype h1]
      simp [np_isnan_map_any, h2]
    · rw [np_isnan_of_numericDtype (all_num_numericDtype h1),
          np_isnan_of_numericDtype h2]
      simp [np_isnan_map_any, all_num_no_nan h1, h3]
  · intro h
    cases hT : np_isnan target with
    | error e =>
        exact ⟨e, by simp [plot_target_feature_distribution, hT]⟩
    | ok tn =>
        by_cases hA : tn.any id = true
        · exact ⟨.vizErrorNaN,
            by simp [plot_target_feature_distribution, hT, hA]⟩
        · have htn := np_isnan_ok_shape hT
          rw [htn, np_isnan_map_any] at hA
          have hFnan : feature.any PyVal.isNan = true := by
            rcases h with h | h
            · exact absurd h hA
            · exact h
          cases hF : np_isnan feature with
          | error e =>
              exact ⟨e, by
                simp [plot_target_feature_distribution, hT, hF, htn,
                  np_isnan_map_any, hA]⟩
          | ok fn =>
              have hfn := np_isnan_ok_shape hF
              have hB : fn.any id = true := by
                rw [hfn, np_isnan_map_any]
                exact hFnan
              exact ⟨.vizErrorNaN, by
                simp [plot_target_feature_distribution, hT, hF, htn,
                  np_isnan_map_any, hA, hB]⟩

/-- C3 witness: with `target = [1, nan]` (float dtype), the string-valued
feature, the unrecognized method and the bootstrap request are all beside
the point: the call fails with the NaN validation error.  And the
string-bearing feature `["a", nan]` with a clean target still fails with
some error. -/
theorem C3_nan_validation_witness :
    plot_target_feature_distribution [.num 1, .nan] [.str "a", .str "b"]
        "bogus" 3 (fun _ => 0) = .error .vizErrorNaN ∧
      ∃ e, plot_target_feature_distribution [.num 1, .num 2] [.str "a", .nan]
        "mean" 0 (fun _ => 0) = .error e :=
  ⟨(C3_nan_validation _ _ _ _ _).1 (.inl ⟨by decide, by decide⟩),
   (C3_nan_validation _ _ _ _ _).2 (.inr (by decide))⟩

/-- C7 (code bug): at `target = [1,1,1,5,5,5]`,
`feature = ["a","a","a","b","b","b"]`, `method = "mean"` the call does not
succeed: `np.isnan(feature)` raises `TypeError` on the string-dtype
feature array, so no categories or aggregates are produced. -/
theorem C7_spec_example_crashes :
    plot_target_feature_distribution
      [.num 1, .num 1, .num 1, .num 5, .num 5, .num 5]
      [.str "a", .str "a", .str "a", .str "b", .str "b", .str "b"]
      "mean" 0 (fun _ => 0) = .error .typeError := by rfl

/-- C2 (code bug): with target `[2,4]` and feature `["x","y"]` — no
missing values, two distinct categories — the aggregation returns no
per-category results at all: `np.isnan` raises `TypeError` on the
string-dtype feature array before any category is enumerated. -/
theorem C2_string_categories_crash :
    plot_target_feature_distribution [.num 2, .num 4] [.str "x", .str "y"]
      "mean" 0 (fun _ => 0) = .error .typeError := by rfl

/-- C8: a `method` other than `"mean"`/`"median"` never yields a result:
every call fails with some error (the dictionary lookup's `KeyError` when
the NaN validation passes, the earlier validation error otherwise). -/
theorem C8_unknown_method_rejected (target feature : List PyVal)
    (method : String) (n_boots : ℕ) (draws : ℕ → ℕ)
    (h1 : method ≠ "mean") (h2 : method ≠ "median") :
    ∃ e, plot_target_feature_distribution target feature method n_boots draws
      = .error e := by
  have hm : agg_func_mapping method = .error .keyError := by
    simp [agg_func_mapping, h1, h2]
  cases hT : np_isnan target with
  | error e =>
      exact ⟨e, by simp [plot_target_feature_distribution, hT]⟩
  | ok tn =>
      by_cases hA : tn.any id = true
      · exact ⟨.vizErrorNaN, by simp [plot_target_feature_distribution, hT, hA]⟩
      · cases hF : np_isnan feature with
        | error e =>
            exact ⟨e, by simp [plot_target_feature_distribution, hT, hF, hA]⟩
        | ok fn =>
            by_cases hB : fn.any id = true
            · exact ⟨.vizErrorNaN,
                by simp [plot_target_feature_distribution, hT, hF, hA, hB]⟩
            · exact ⟨.keyError,
                by simp [plot_target_feature_distribution, hT, hF, hA, hB, hm]⟩

/-- C8 witness: `method = "max"` is rejected. -/
theorem C8_unknown_method_rejected_witness :
    ∃ e, plot_target_feature_distribution [.num 1] [.num 2] "max" 0
      (fun _ => 0) = .error e :=
  C8_unknown_method_rejected _ _ _ _ _ (by decide) (by decide)

/-- C10: `SQLDataSet.__init__` stores a pre-built `Connectable` unchanged
as the engine (no new engine is created), builds an engine from a
connection string via `sa.create_engine(conn, **engine_kwargs)`, and
raises `ValueError("Invalid connection")` for any other value, leaving no
instance and hence no engine. -/
theorem C10_sql_init_cases (c : Connectable) (s : String) (o : ℕ)
    (kw : List (String × String)) :
    SQLDataSet.init (.connectable c) kw = .ok ⟨.stored c⟩ ∧
    SQLDataSet.init (.connString s) kw = .ok ⟨.created s kw⟩ ∧
    SQLDataSet.init (.other o) kw = .error .valueError :=
  ⟨rfl, rfl, rfl⟩

theorem np_isnan_error_shape {xs : List PyVal} {e : PyErr}
    (h : np_isnan xs = .error e) : e = .typeError := by
  unfold np_isnan at h
  split at h
  · simp at h
  · injection h with h'
    exact h'.symm

/-- C4 (counterexample): sixteen distinct NaN-free string categories — the
spec's own over-the-ceiling example — fail with `np.isnan`'s `TypeError`
before any category enumeration, not with the cardinality validation
error the claim promises for every NaN-free input with more than 15
distinct values. -/
theorem C4_sixteen_string_categories_cex :
    plot_target_feature_distribution
        [.num 0, .num 1, .num 2, .num 3, .num 4, .num 5, .num 6, .num 7,
         .num 8, .num 9, .num 10, .num 11, .num 12, .num 13, .num 14, .num 15]
        [.str "a", .str "b", .str "c", .str "d", .str "e", .str "f",
         .str "g", .str "h", .str "i", .str "j", .str "k", .str "l",
         .str "m", .str "n", .str "o", .str "p"]
        "mean" 0 (fun _ => 0) = .error .typeError ∧
      plot_target_feature_distribution
        [.num 0, .num 1, .num 2, .num 3, .num 4, .num 5, .num 6, .num 7,
         .num 8, .num 9, .num 10, .num 11, .num 12, .num 13, .num 14, .num 15]
        [.str "a", .str "b", .str "c", .str "d", .str "e", .str "f",
         .str "g", .str "h", .str "i", .str "j", .str "k", .str "l",
         .str "m", .str "n", .str "o", .str "p"]
        "mean" 0 (fun _ => 0) ≠ .error .vizErrorTooManyCategories := by
  refine ⟨rfl, fun h => ?_⟩
  rw [show plot_target_feature_distribution
      [.num 0, .num 1, .num 2, .num 3, .num 4, .num 5, .num 6, .num 7,
       .num 8, .num 9, .num 10, .num 11, .num 12, .num 13, .num 14, .num 15]
      [.str "a", .str "b", .str "c", .str "d", .str "e", .str "f",
       .str "g", .str "h", .str "i", .str "j", .str "k", .str "l",
       .str "m", .str "n", .str "o", .str "p"]
      "mean" 0 (fun _ => 0) = .error .typeError from rfl] at h
  injection h with h'
  exact PyErr.noConfusion h'

/-- C4 (amended): on numeric (float-dtype) NaN-free inputs with a
recognized method, strictly more than 15 distinct feature values fail
with the category-ceiling `VizError` (raised after `np.unique`, before
any aggregate is computed — the returned error carries no data);
string-dtype features crash earlier with `np.isnan`'s `TypeError`, and an
unrecognized method raises `KeyError` before enumeration.  And no input
whatsoever with at most 15 distinct feature values is rejected by this
check. -/
theorem C4_category_ceiling (target feature : List PyVal) (method : String)
    (n_boots : ℕ) (draws : ℕ → ℕ) :
    (target.all PyVal.isNum = true → feature.all PyVal.isNum = true →
      (method = "mean" ∨ method = "median") →
      15 < (np_unique feature).length →
      plot_target_feature_distribution target feature method n_boots draws
        = .error .vizErrorTooManyCategories) ∧
    ((np_unique feature).length ≤ 15 →
      plot_target_feature_distribution target feature method n_boots draws
        ≠ .error .vizErrorTooManyCategories) := by
  constructor
  · intro ht hf hm hlen
    obtain ⟨f, hfm⟩ : ∃ f, agg_func_mapping method = .ok f := by
      rcases hm with h | h <;> subst h <;> exact ⟨_, rfl⟩
    unfold plot_target_feature_distribution
    rw [np_isnan_of_numericDtype (all_num_numericDtype ht),
        np_isnan_of_numericDtype (all_num_numericDtype hf), hfm]
    simp [np_isnan_map_any, all_num_no_nan ht, all_num_no_nan hf, hlen]
  · intro hlen
    unfold plot_target_feature_distribution
    cases hT : np_isnan target with
    | error e =>
        simp [hT, np_isnan_error_shape hT]
    | ok tn =>
        by_cases hA : tn.any id = true
        · simp [hT, hA]
        · cases hF : np_isnan feature with
          | error e =>
              simp [hT, hF, hA, np_isnan_error_shape hF]
          | ok fn =>
              by_cases hB : fn.any id = true
              · simp [hT, hF, hA, hB]
              · cases hM : agg_func_mapping method with
                | error e =>
                    have : e = .keyError := by
                      unfold agg_func_mapping at hM
                      split at hM
                      · simp at hM
                      · split at hM
                        · simp at hM
                        · injection hM with h'
                          exact h'.symm
                    simp [hT, hF, hA, hB, hM, this]
                | ok f =>
                    simp [hT, hF, hA, hB, hM, Nat.not_lt.mpr hlen]

/-- C4 witness: sixteen distinct numeric categories are rejected with the
ceiling error; a single category is not rejected by this check. -/
theorem C4_category_ceiling_witness :
    plot_target_feature_distribution
      [.num 0, .num 1, .num 2, .num 3, .num 4, .num 5, .num 6, .num 7,
       .num 8, .num 9, .num 10, .num 11, .num 12, .num 13, .num 14, .num 15]
      [.num 0, .num 1, .num 2, .num 3, .num 4, .num 5, .num 6, .num 7,
       .num 8, .num 9, .num 10, .num 11, .num 12, .num 13, .num 14, .num 15]
      "mean" 0 (fun _ => 0) = .error .vizErrorTooManyCategories ∧
    plot_target_feature_distribution [.num 1] [.num 1] "mean" 0 (fun _ => 0)
      ≠ .error .vizErrorTooManyCategories :=
  ⟨(C4_category_ceiling _ _ _ _ _).1 (by decide) (by decide) (Or.inl rfl)
      (by decide),
   (C4_category_ceiling _ _ _ _ _).2 (by decide)⟩

/-! ## Purity and randomness -/

/-- A run's outcome stripped of the bootstrap intervals: the error, or the
categories and the aggregates. -/
def resultCore : Except PyErr AggResult → Except PyErr (List PyVal × List ℚ)
  | .error e => .error e
  | .ok r => .ok (r.feature_categories, r.data)

/-- C9 (amended): the validation outcome, the categories and the
aggregates are a pure function of target, feature and method alone — they
depend neither on the draw oracle nor on `n_boots`; only the bootstrap
interval bounds vary with the random draws. -/
theorem C9_core_deterministic (target feature : List PyVal) (method : String)
    (n1 n2 : ℕ) (d1 d2 : ℕ → ℕ) :
    resultCore (plot_target_feature_distribution target feature method n1 d1) =
      resultCore (plot_target_feature_distribution target feature method n2 d2) := by
  unfold plot_target_feature_distribution
  cases hT : np_isnan target with
  | error e => simp [hT]
  | ok tn =>
    by_cases hA : tn.any id = true
    · simp [hT, hA]
    · cases hF : np_isnan feature with
      | error e => simp [hT, hF, hA]
      | ok fn =>
        by_cases hB : fn.any id = true
        · simp [hT, hF, hA, hB]
        · cases hM : agg_func_mapping method with
          | error e => simp [hT, hF, hA, hB, hM]
          | ok f =>
            by_cases hC : (np_unique feature).length > 15
            · simp [hT, hF, hA, hB, hM, hC]
            · simp [hT, hF, hA, hB, hM, hC, resultCore]

/-- C9 (counterexample): two calls with identical target, feature, method
and `n_boots` but different RNG draw sequences return different bootstrap
interval bounds: the intervals depend on np.random's hidden global state. -/
theorem C9_intervals_depend_on_rng :
    plot_target_feature_distribution [.num 0, .num 100] [.num 1, .num 1]
        "mean" 1 (fun _ => 0) ≠
      plot_target_feature_distribution [.num 0, .num 100] [.num 1, .num 1]
        "mean" 1 (fun _ => 1) := by
  intro h
  rw [@plot_run_ok [.num 0, .num 100] [.num 1, .num 1] "mean" .mean
        (by decide) (by decide) rfl (by decide) 1 (fun _ => 0),
      @plot_run_ok [.num 0, .num 100] [.num 1, .num 1] "mean" .mean
        (by decide) (by decide) rfl (by decide) 1 (fun _ => 1)] at h
  norm_num [bootIntervals, bootInterval, npRandomChoice, columnMeans,
    reshapeColumn, npMean, npPercentile, npSort, maskSelect, np_unique,
    PyVal.toRat, List.insertionSort, List.orderedInsert, List.range_succ,
    AggResult.mk.injEq, Prod.ext_iff, -Prod.mk_zero_zero] at h

/-! ## The aggregates (C1) -/

/-- A category's target subset as the spec words it: the target values
whose aligned (same-index) feature entry equals the category. -/
def specCategorySubset (target feature : List PyVal) (category : PyVal) :
    List ℚ :=
  ((List.range feature.length).filter
      (fun i => decide (feature.getD i .nan = category))).map
    (fun i => (target.getD i .nan).toRat)

/-- The arithmetic mean as the spec words it: the sum over the count. -/
def arithmeticMean (xs : List ℚ) : ℚ := xs.sum / xs.length

theorem specCategorySubset_cons (t : PyVal) (ts : List PyVal) (f : PyVal)
    (fs : List PyVal) (category : PyVal) :
    specCategorySubset (t :: ts) (f :: fs) category =
      (if f = category then [t.toRat] else []) ++
        specCategorySubset ts fs category := by
  unfold specCategorySubset
  rw [List.length_cons, List.range_succ_eq_map, List.filter_cons,
    List.filter_map]
  by_cases hc : f = category
  · simp [hc, Function.comp_def]
  · simp [hc, Function.comp_def]

theorem maskSelect_cons (t : PyVal) (ts : List PyVal) (f : PyVal)
    (fs : List PyVal) (category : PyVal) :
    maskSelect (t :: ts) (f :: fs) category =
      (if f = category then [t.toRat] else []) ++ maskSelect ts fs category := by
  unfold maskSelect
  by_cases hc : f = category
  · simp [hc]
  · simp [hc]

/-- On aligned arrays the boolean-mask selection `target[feature == c]` is
exactly the spec's index-aligned subset. -/
theorem maskSelect_eq_specCategorySubset :
    ∀ (target feature : List PyVal) (category : PyVal),
      target.length = feature.length →
      maskSelect target feature category =
        specCategorySubset target feature category
  | [], [], _, _ => rfl
  | [], _ :: _, _, h => by simp at h
  | _ :: _, [], _, h => by simp at h
  | t :: ts, f :: fs, c, h => by
      have h' : ts.length = fs.length := by simpa using h
      rw [maskSelect_cons, specCategorySubset_cons,
        maskSelect_eq_specCategorySubset ts fs c h']

/-- C1: on aligned numeric NaN-free inputs with at most 15 categories, the
aggregate returned for each category under `method = "mean"` is the
arithmetic mean of the target values whose aligned feature entry equals
that category, and under `method = "median"` the median of that subset. -/
theorem C1_aggregate_values (target feature : List PyVal) (method : String)
    (n_boots : ℕ) (draws : ℕ → ℕ) (res : AggResult)
    (hlen : target.length = feature.length)
    (ht : target.all PyVal.isNum = true) (hf : feature.all PyVal.isNum = true)
    (hcats : (np_unique feature).length ≤ 15)
    (hrun : plot_target_feature_distribution target feature method n_boots draws
      = .ok res) :
    (method = "mean" →
      res.data = (np_unique feature).map
        (fun c => arithmeticMean (specCategorySubset target feature c))) ∧
    (method = "median" →
      res.data = (np_unique feature).map
        (fun c => npMedian (specCategorySubset target feature c))) := by
  constructor
  · rintro rfl
    rw [@plot_run_ok target feature "mean" .mean ht hf rfl hcats n_boots
      draws] at hrun
    injection hrun with h
    rw [← h]
    apply List.map_congr_left
    intro c _
    show npMean (maskSelect target feature c) =
      arithmeticMean (specCategorySubset target feature c)
    rw [maskSelect_eq_specCategorySubset target feature c hlen]
    rfl
  · rintro rfl
    rw [@plot_run_ok target feature "median" .median ht hf rfl hcats n_boots
      draws] at hrun
    injection hrun with h
    rw [← h]
    apply List.map_congr_left
    intro c _
    show npMedian (maskSelect target feature c) =
      npMedian (specCategorySubset target feature c)
    rw [maskSelect_eq_specCategorySubset target feature c hlen]

/-- C1 witness: `target = [1,1,1,5,5,5]` against the two-category numeric
feature `[10,10,10,20,20,20]` with `method = "mean"` returns aggregates
`[1, 5]`, the means of the two aligned subsets. -/
theorem C1_aggregate_values_witness :
    plot_target_feature_distribution
        [.num 1, .num 1, .num 1, .num 5, .num 5, .num 5]
        [.num 10, .num 10, .num 10, .num 20, .num 20, .num 20]
        "mean" 0 (fun _ => 0) =
      .ok ⟨[.num 10, .num 20], [1, 5], none⟩ ∧
    ([1, 5] : List ℚ) =
      (np_unique [.num 10, .num 10, .num 10, .num 20, .num 20, .num 20]).map
        (fun c => arithmeticMean (specCategorySubset
          [.num 1, .num 1, .num 1, .num 5, .num 5, .num 5]
          [.num 10, .num 10, .num 10, .num 20, .num 20, .num 20] c)) := by
  have hrun : plot_target_feature_distribution
      [.num 1, .num 1, .num 1, .num 5, .num 5, .num 5]
      [.num 10, .num 10, .num 10, .num 20, .num 20, .num 20]
      "mean" 0 (fun _ => 0) = .ok ⟨[.num 10, .num 20], [1, 5], none⟩ := by
    rw [@plot_run_ok [.num 1, .num 1, .num 1, .num 5, .num 5, .num 5]
      [.num 10, .num 10, .num 10, .num 20, .num 20, .num 20] "mean" .mean
      (by decide) (by decide) rfl (by decide) 0 (fun _ => 0)]
    norm_num [np_unique, maskSelect, npMean, AggFunc.apply, PyVal.toRat,
      PyVal.le, List.insertionSort, List.orderedInsert]
  refine ⟨hrun, ?_⟩
  have h2 := (C1_aggregate_values
    [.num 1, .num 1, .num 1, .num 5, .num 5, .num 5]
    [.num 10, .num 10, .num 10, .num 20, .num 20, .num 20]
    "mean" 0 (fun _ => 0) ⟨[.num 10, .num 20], [1, 5], none⟩
    rfl (by decide) (by decide) (by decide) hrun).1 rfl
  exact h2

/-! ## List access helpers -/

theorem getD_mem_of_lt {α : Type} {l : List α} {n : ℕ} (h : n < l.length)
    (d : α) : l.getD n d ∈ l := by
  rw [List.getD_eq_getElem?_getD, List.getElem?_eq_getElem h]
  exact List.getElem_mem h

theorem getD_eq_getD_of_lt {α : Type} (l : List α) (d1 d2 : α) {i : ℕ}
    (h : i < l.length) : l.getD i d1 = l.getD i d2 := by
  rw [List.getD_eq_getElem?_getD, List.getD_eq_getElem?_getD,
    List.getElem?_eq_getElem h]
  rfl

theorem getD_map_range {s i : ℕ} (h : i < s) (f : ℕ → ℚ) (d : ℚ) :
    ((List.range s).map f).getD i d = f i := by
  rw [List.getD_eq_getElem?_getD, List.getElem?_map, List.getElem?_range h]
  rfl

/-! ## Facts about the sort, the mean and the percentile -/

theorem npSort_sorted (xs : List ℚ) : (npSort xs).Sorted (· ≤ ·) :=
  List.sorted_insertionSort _ xs

theorem npSort_perm (xs : List ℚ) : List.Perm (npSort xs) xs :=
  List.perm_insertionSort _ xs

theorem npSort_length (xs : List ℚ) : (npSort xs).length = xs.length :=
  (npSort_perm xs).length_eq

theorem npSort_mem {xs : List ℚ} {x : ℚ} : x ∈ npSort xs ↔ x ∈ xs :=
  (npSort_perm xs).mem_iff

theorem sorted_getD_mono {b : List ℚ} (hb : b.Sorted (· ≤ ·)) {i j : ℕ}
    (hij : i ≤ j) (hj : j < b.length) : b.getD i 0 ≤ b.getD j 0 := by
  rcases eq_or_lt_of_le hij with rfl | hlt
  · exact le_refl _
  · have hi : i < b.length := lt_trans hlt hj
    rw [List.getD_eq_getElem?_getD, List.getElem?_eq_getElem hi,
        List.getD_eq_getElem?_getD, List.getElem?_eq_getElem hj]
    simpa using List.pairwise_iff_get.mp hb ⟨i, hi⟩ ⟨j, hj⟩ hlt

theorem npMean_bounds {xs : List ℚ} (hne : xs ≠ []) {m M : ℚ}
    (hm : ∀ x ∈ xs, m ≤ x) (hM : ∀ x ∈ xs, x ≤ M) :
    m ≤ npMean xs ∧ npMean xs ≤ M := by
  have hlen : 0 < (xs.length : ℚ) := by
    exact_mod_cast List.length_pos.mpr hne
  have hsum_le : xs.sum ≤ (xs.length : ℚ) * M := by
    calc xs.sum ≤ xs.length • M := List.sum_le_card_nsmul xs M hM
      _ = (xs.length : ℚ) * M := by rw [nsmul_eq_mul]
  have hle_sum : (xs.length : ℚ) * m ≤ xs.sum := by
    calc (xs.length : ℚ) * m = xs.length • m := (nsmul_eq_mul _ _).symm
      _ ≤ xs.sum := List.card_nsmul_le_sum xs m hm
  constructor
  · rw [npMean, le_div_iff₀ hlen]
    linarith
  · rw [npMean, div_le_iff₀ hlen]
    linarith

theorem convex_between {a B f m M : ℚ} (ham : m ≤ a) (haM : a ≤ M)
    (hBm : m ≤ B) (hBM : B ≤ M) (hf0 : 0 ≤ f) (hf1 : f ≤ 1) :
    m ≤ a + f * (B - a) ∧ a + f * (B - a) ≤ M := by
  constructor
  · nlinarith [mul_nonneg (sub_nonneg.mpr hf1) (sub_nonneg.mpr ham),
      mul_nonneg hf0 (sub_nonneg.mpr hBm)]
  · nlinarith [mul_nonneg (sub_nonneg.mpr hf1) (sub_nonneg.mpr haM),
      mul_nonneg hf0 (sub_nonneg.mpr hBM)]

/-- The linear interpolation at parameter `h` read off a (sorted) list:
the common core of the two percentile queries. -/
def interpAt (b : List ℚ) (h : ℚ) : ℚ :=
  b.getD (⌊h⌋).toNat 0 +
    (h - ((⌊h⌋).toNat : ℚ)) *
      (b.getD ((⌊h⌋).toNat + 1) (b.getD (⌊h⌋).toNat 0) - b.getD (⌊h⌋).toNat 0)

theorem npPercentile_eq_interpAt (xs : List ℚ) (q : ℚ) :
    npPercentile xs q = interpAt (npSort xs) (((xs.length : ℚ) - 1) * q / 100) :=
  rfl

theorem interp_lo_cast {h : ℚ} (h0 : 0 ≤ h) : (((⌊h⌋).toNat : ℚ)) = ⌊h⌋ := by
  exact_mod_cast Int.toNat_of_nonneg (Int.floor_nonneg.mpr h0)

theorem interp_lo_lt_length {b : List ℚ} (hbne : b ≠ []) {h : ℚ} (h0 : 0 ≤ h)
    (h1 : h ≤ (b.length : ℚ) - 1) : (⌊h⌋).toNat < b.length := by
  have hq : (((⌊h⌋).toNat : ℚ)) ≤ (b.length : ℚ) - 1 :=
    (interp_lo_cast h0) ▸ le_trans (Int.floor_le h) h1
  have hlen : 0 < b.length := List.length_pos.mpr hbne
  have : ((⌊h⌋).toNat : ℚ) + 1 ≤ (b.length : ℚ) := by linarith
  exact_mod_cast lt_of_lt_of_le (lt_add_one _) (by exact_mod_cast this)

theorem interpAt_bounds {b : List ℚ} (hbne : b ≠ []) {h m M : ℚ}
    (h0 : 0 ≤ h) (h1 : h ≤ (b.length : ℚ) - 1)
    (hm : ∀ x ∈ b, m ≤ x) (hM : ∀ x ∈ b, x ≤ M) :
    m ≤ interpAt b h ∧ interpAt b h ≤ M := by
  have hlo : (⌊h⌋).toNat < b.length := interp_lo_lt_length hbne h0 h1
  have ha := hm _ (getD_mem_of_lt hlo 0)
  have ha' := hM _ (getD_mem_of_lt hlo 0)
  have hfrac0 : 0 ≤ h - (((⌊h⌋).toNat : ℚ)) := by
    rw [interp_lo_cast h0]
    exact sub_nonneg.mpr (Int.floor_le h)
  have hfrac1 : h - (((⌊h⌋).toNat : ℚ)) ≤ 1 := by
    rw [interp_lo_cast h0]
    have := Int.lt_floor_add_one h
    linarith
  unfold interpAt
  by_cases hlt : (⌊h⌋).toNat + 1 < b.length
  · have hB := hm _ (getD_mem_of_lt hlt (b.getD (⌊h⌋).toNat 0))
    have hB' := hM _ (getD_mem_of_lt hlt (b.getD (⌊h⌋).toNat 0))
    exact convex_between ha ha' hB hB' hfrac0 hfrac1
  · rw [List.getD_eq_default _ _ (Nat.le_of_not_lt hlt)]
    exact convex_between ha ha' ha ha' hfrac0 hfrac1

theorem interpAt_mono {b : List ℚ} (hb : b.Sorted (· ≤ ·)) (hbne : b ≠ [])
    {g1 g2 : ℚ} (h0 : 0 ≤ g1) (h12 : g1 ≤ g2)
    (h2b : g2 ≤ (b.length : ℚ) - 1) :
    interpAt b g1 ≤ interpAt b g2 := by
  have h0' : (0 : ℚ) ≤ g2 := le_trans h0 h12
  have h1b : g1 ≤ (b.length : ℚ) - 1 := le_trans h12 h2b
  have hlo1 : (⌊g1⌋).toNat < b.length := interp_lo_lt_length hbne h0 h1b
  have hlo2 : (⌊g2⌋).toNat < b.length := interp_lo_lt_length hbne h0' h2b
  have hfrac10 : 0 ≤ g1 - (((⌊g1⌋).toNat : ℚ)) := by
    rw [interp_lo_cast h0]; exact sub_nonneg.mpr (Int.floor_le g1)
  have hfrac11 : g1 - (((⌊g1⌋).toNat : ℚ)) ≤ 1 := by
    rw [interp_lo_cast h0]
    have := Int.lt_floor_add_one g1
    linarith
  have hfrac20 : 0 ≤ g2 - (((⌊g2⌋).toNat : ℚ)) := by
    rw [interp_lo_cast h0']; exact sub_nonneg.mpr (Int.floor_le g2)
  have hmono : (⌊g1⌋).toNat ≤ (⌊g2⌋).toNat :=
    Int.toNat_le_toNat (Int.floor_le_floor h12)
  rcases eq_or_lt_of_le hmono with heq | hlt
  · -- same cell: the difference is (g2 - g1) times a nonnegative slope
    unfold interpAt
    rw [← heq]
    set lo := (⌊g1⌋).toNat with hlodef
    have hBa : b.getD lo 0 ≤ b.getD (lo + 1) (b.getD lo 0) := by
      by_cases hlt1 : lo + 1 < b.length
      · rw [getD_eq_getD_of_lt _ _ 0 hlt1]
        exact sorted_getD_mono hb (Nat.le_succ lo) hlt1
      · rw [List.getD_eq_default _ _ (Nat.le_of_not_lt hlt1)]
    have hg : g1 - ((lo : ℚ)) ≤ g2 - ((lo : ℚ)) := by
      have hcast : ((lo : ℚ)) = ⌊g1⌋ := interp_lo_cast h0
      have hcast2 : (((⌊g2⌋).toNat : ℚ)) = ⌊g2⌋ := interp_lo_cast h0'
      linarith
    nlinarith [mul_le_mul_of_nonneg_right hg
      (sub_nonneg.mpr hBa)]
  · -- the first interpolation cell lies fully below the second
    have hlt1 : (⌊g1⌋).toNat + 1 < b.length := lt_of_le_of_lt hlt hlo2
    have step1 : interpAt b g1 ≤ b.getD ((⌊g1⌋).toNat + 1) 0 := by
      unfold interpAt
      rw [getD_eq_getD_of_lt _ _ 0 hlt1]
      have hBa : b.getD (⌊g1⌋).toNat 0 ≤ b.getD ((⌊g1⌋).toNat + 1) 0 :=
        sorted_getD_mono hb (Nat.le_succ _) hlt1
      nlinarith [mul_le_mul_of_nonneg_right hfrac11 (sub_nonneg.mpr hBa)]
    have step2 : b.getD ((⌊g1⌋).toNat + 1) 0 ≤ b.getD (⌊g2⌋).toNat 0 :=
      sorted_getD_mono hb hlt hlo2
    have step3 : b.getD (⌊g2⌋).toNat 0 ≤ interpAt b g2 := by
      unfold interpAt
      have hBa : b.getD (⌊g2⌋).toNat 0 ≤
          b.getD ((⌊g2⌋).toNat + 1) (b.getD (⌊g2⌋).toNat 0) := by
        by_cases hlt2 : (⌊g2⌋).toNat + 1 < b.length
        · rw [getD_eq_getD_of_lt _ _ 0 hlt2]
          exact sorted_getD_mono hb (Nat.le_succ _) hlt2
        · rw [List.getD_eq_default _ _ (Nat.le_of_not_lt hlt2)]
      nlinarith [mul_le_mul_of_nonneg_right hfrac20 (sub_nonneg.mpr hBa)]
    exact le_trans step1 (le_trans step2 step3)

theorem npPercentile_bounds {xs : List ℚ} (hne : xs ≠ []) {q m M : ℚ}
    (hq0 : 0 ≤ q) (hq1 : q ≤ 100)
    (hm : ∀ x ∈ xs, m ≤ x) (hM : ∀ x ∈ xs, x ≤ M) :
    m ≤ npPercentile xs q ∧ npPercentile xs q ≤ M := by
  have hbne : npSort xs ≠ [] := by
    intro h
    exact hne (List.Perm.eq_nil (h ▸ (npSort_perm xs).symm))
  have hlen : (1 : ℚ) ≤ (xs.length : ℚ) := by
    exact_mod_cast List.length_pos.mpr hne
  have h0 : 0 ≤ ((xs.length : ℚ) - 1) * q / 100 :=
    div_nonneg (mul_nonneg (by linarith) hq0) (by norm_num)
  have h1 : ((xs.length : ℚ) - 1) * q / 100 ≤ ((npSort xs).length : ℚ) - 1 := by
    rw [npSort_length]
    rw [div_le_iff₀ (by norm_num : (0:ℚ) < 100)]
    nlinarith
  rw [npPercentile_eq_interpAt]
  exact interpAt_bounds hbne h0 h1 (fun x hx => hm x (npSort_mem.mp hx))
    (fun x hx => hM x (npSort_mem.mp hx))

theorem npPercentile_mono {xs : List ℚ} (hne : xs ≠ []) {q1 q2 : ℚ}
    (h0 : 0 ≤ q1) (h12 : q1 ≤ q2) (h2 : q2 ≤ 100) :
    npPercentile xs q1 ≤ npPercentile xs q2 := by
  have hbne : npSort xs ≠ [] := by
    intro h
    exact hne (List.Perm.eq_nil (h ▸ (npSort_perm xs).symm))
  have hlen : (1 : ℚ) ≤ (xs.length : ℚ) := by
    exact_mod_cast List.length_pos.mpr hne
  have hq0 : 0 ≤ ((xs.length : ℚ) - 1) * q1 / 100 :=
    div_nonneg (mul_nonneg (by linarith) h0) (by norm_num)
  have hq12 : ((xs.length : ℚ) - 1) * q1 / 100 ≤
      ((xs.length : ℚ) - 1) * q2 / 100 := by
    apply div_le_div_of_nonneg_right ?_ (by norm_num)
    · exact mul_le_mul_of_nonneg_left h12 (by linarith)
  have hq2b : ((xs.length : ℚ) - 1) * q2 / 100 ≤ ((npSort xs).length : ℚ) - 1 := by
    rw [npSort_length]
    rw [div_le_iff₀ (by norm_num : (0:ℚ) < 100)]
    nlinarith
  rw [npPercentile_eq_interpAt, npPercentile_eq_interpAt]
  exact interpAt_mono (npSort_sorted xs) hbne hq0 hq12 hq2b

/-! ## Facts about the bootstrap loop -/

theorem npRandomChoice_length (data : List ℚ) (k : ℕ) (draws : ℕ → ℕ)
    (off : ℕ) : (npRandomChoice data k draws off).length = k := by
  simp [npRandomChoice]

theorem npRandomChoice_mem {data : List ℚ} (hne : data ≠ []) (k : ℕ)
    (draws : ℕ → ℕ) (off : ℕ) :
    ∀ x ∈ npRandomChoice data k draws off, x ∈ data := by
  intro x hx
  simp only [npRandomChoice, List.mem_map, List.mem_range] at hx
  obtain ⟨j, _, rfl⟩ := hx
  exact getD_mem_of_lt
    (Nat.mod_lt _ (List.length_pos.mpr hne)) 0

theorem reshapeColumn_length (flat : List ℚ) (nBoots s j : ℕ) :
    (reshapeColumn flat nBoots s j).length = s := by
  simp [reshapeColumn]

theorem reshapeColumn_mem {flat : List ℚ} {nBoots s : ℕ} {j : ℕ}
    (hj : j < nBoots) (hlen : flat.length = nBoots * s) :
    ∀ x ∈ reshapeColumn flat nBoots s j, x ∈ flat := by
  intro x hx
  simp only [reshapeColumn, List.mem_map, List.mem_range] at hx
  obtain ⟨r, hr, rfl⟩ := hx
  apply getD_mem_of_lt ?_ 0
  rw [hlen]
  calc r * nBoots + j < r * nBoots + nBoots := by omega
    _ = (r + 1) * nBoots := by ring
    _ ≤ s * nBoots := Nat.mul_le_mul_right _ hr
    _ = nBoots * s := Nat.mul_comm _ _

/-- Sample `k` of the flat drawn list is entry `k / nBoots` of resample
(column) `k % nBoots` of the reshaped matrix: every drawn sample lands in
exactly one of the `nBoots` resamples. -/
theorem reshapeColumn_partition (flat : List ℚ) {nBoots s : ℕ}
    (hn : 0 < nBoots) {k : ℕ} (hk : k < nBoots * s) :
    (reshapeColumn flat nBoots s (k % nBoots)).getD (k / nBoots) 0 =
      flat.getD k 0 := by
  have hdiv : k / nBoots < s := by
    rw [Nat.div_lt_iff_lt_mul hn]
    rwa [Nat.mul_comm] at hk
  unfold reshapeColumn
  rw [getD_map_range hdiv]
  have hidx : k / nBoots * nBoots + k % nBoots = k := by
    rw [Nat.mul_comm]
    exact Nat.div_add_mod k nBoots
  rw [hidx]

theorem columnMeans_length (flat : List ℚ) (nBoots s : ℕ) :
    (columnMeans flat nBoots s).length = nBoots := by
  simp [columnMeans]

theorem columnMeans_mem_bounds {flat : List ℚ} {nBoots s : ℕ} (hs : 0 < s)
    (hlen : flat.length = nBoots * s) {m M : ℚ}
    (hm : ∀ x ∈ flat, m ≤ x) (hM : ∀ x ∈ flat, x ≤ M) :
    ∀ y ∈ columnMeans flat nBoots s, m ≤ y ∧ y ≤ M := by
  intro y hy
  simp only [columnMeans, List.mem_map, List.mem_range] at hy
  obtain ⟨j, hj, rfl⟩ := hy
  have hcne : reshapeColumn flat nBoots s j ≠ [] := by
    intro h
    have := reshapeColumn_length flat nBoots s j
    rw [h] at this
    simp at this
    omega
  exact npMean_bounds hcne
    (fun x hx => hm x (reshapeColumn_mem hj hlen x hx))
    (fun x hx => hM x (reshapeColumn_mem hj hlen x hx))

theorem bootIntervals_length (target feature : List PyVal) (cats : List PyVal)
    (nBoots : ℕ) (draws : ℕ → ℕ) (off : ℕ) :
    (bootIntervals target feature cats nBoots draws off).length = cats.length := by
  induction cats generalizing off with
  | nil => rfl
  | cons c rest ih => simp [bootIntervals, ih]

theorem bootIntervals_getD (target feature : List PyVal) (cats : List PyVal)
    (nBoots : ℕ) (draws : ℕ → ℕ) (off : ℕ) :
    ∀ i, i < cats.length → ∃ off2,
      (bootIntervals target feature cats nBoots draws off).getD i (0, 0) =
        bootInterval (maskSelect target feature (cats.getD i .nan)) nBoots
          draws off2 := by
  induction cats generalizing off with
  | nil =>
      intro i hi
      simp at hi
  | cons c rest ih =>
      intro i hi
      cases i with
      | zero => exact ⟨off, by simp [bootIntervals]⟩
      | succ i =>
          obtain ⟨off2, h⟩ :=
            ih (off + nBoots * (maskSelect target feature c).length) i
              (by simpa using hi)
          exact ⟨off2, by simpa [bootIntervals] using h⟩

/-! ## Nonemptiness of a category's subset -/

theorem maskSelect_ne_nil :
    ∀ (target feature : List PyVal) (c : PyVal),
      target.length = feature.length → c ∈ feature →
      maskSelect target feature c ≠ []
  | [], [], c, _, hc => by simp at hc
  | [], _ :: _, _, h, _ => by simp at h
  | _ :: _, [], c, _, hc => by simp at hc
  | t :: ts, f :: fs, c, h, hc => by
      rw [maskSelect_cons]
      by_cases hf : f = c
      · simp [hf]
      · have hc' : c ∈ fs := by
          rcases List.mem_cons.mp hc with rfl | hm
          · exact absurd rfl hf
          · exact hm
        have h' : ts.length = fs.length := by simpa using h
        simpa [hf] using maskSelect_ne_nil ts fs c h' hc'

theorem mem_np_unique {feature : List PyVal} {c : PyVal} :
    c ∈ np_unique feature ↔ c ∈ feature := by
  rw [np_unique, List.mem_insertionSort, List.mem_dedup]

/-- The bootstrap run, described against the spec's subset: on aligned
numeric NaN-free inputs with a recognized method, at most 15 categories
and `n_boots ≥ 1`, the call returns one interval per category, and for
category `i` there is a list of `n_boots * subset_size` samples drawn from
that category's subset whose `n_boots` reshaped columns (resamples of
`subset_size` draws each, partitioning the samples) have as means the list
whose 2.5th/97.5th percentiles are the returned bounds. -/
theorem bootstrap_run_spec (target feature : List PyVal) (method : String)
    (n_boots : ℕ) (draws : ℕ → ℕ)
    (hlen : target.length = feature.length)
    (ht : target.all PyVal.isNum = true) (hf : feature.all PyVal.isNum = true)
    (hm : method = "mean" ∨ method = "median")
    (hcats : (np_unique feature).length ≤ 15)
    (hn : 0 < n_boots) :
    ∃ res ivs,
      plot_target_feature_distribution target feature method n_boots draws
        = .ok res ∧
      res.percentile = some ivs ∧
      ivs.length = (np_unique feature).length ∧
      ∀ i, i < (np_unique feature).length →
        ∃ boots_sample : List ℚ,
          boots_sample.length = n_boots * (specCategorySubset target feature
            ((np_unique feature).getD i .nan)).length ∧
          (∀ x ∈ boots_sample, x ∈ specCategorySubset target feature
            ((np_unique feature).getD i .nan)) ∧
          (∀ j, j < n_boots →
            (reshapeColumn boots_sample n_boots (specCategorySubset target
              feature ((np_unique feature).getD i .nan)).length j).length =
              (specCategorySubset target feature
                ((np_unique feature).getD i .nan)).length) ∧
          (∀ k, k < n_boots * (specCategorySubset target feature
              ((np_unique feature).getD i .nan)).length →
            (reshapeColumn boots_sample n_boots (specCategorySubset target
                feature ((np_unique feature).getD i .nan)).length
                (k % n_boots)).getD (k / n_boots) 0 =
              boots_sample.getD k 0) ∧
          ivs.getD i (0, 0) =
            (npPercentile ((List.range n_boots).map
              (fun j => npMean (reshapeColumn boots_sample n_boots
                (specCategorySubset target feature
                  ((np_unique feature).getD i .nan)).length j))) (5/2),
             npPercentile ((List.range n_boots).map
              (fun j => npMean (reshapeColumn boots_sample n_boots
                (specCategorySubset target feature
                  ((np_unique feature).getD i .nan)).length j))) (195/2)) := by
  obtain ⟨f, hfm⟩ : ∃ f, agg_func_mapping method = .ok f := by
    rcases hm with h | h <;> subst h <;> exact ⟨_, rfl⟩
  have hrun := plot_run_ok ht hf hfm hcats n_boots draws
  rw [if_pos (Nat.pos_iff_ne_zero.mp hn)] at hrun
  refine ⟨_, bootIntervals target feature (np_unique feature) n_boots draws 0,
    hrun, rfl, bootIntervals_length _ _ _ _ _ _, ?_⟩
  intro i hi
  obtain ⟨off2, hoff⟩ := bootIntervals_getD target feature (np_unique feature)
    n_boots draws 0 i hi
  have hc_mem : (np_unique feature).getD i .nan ∈ feature :=
    mem_np_unique.mp (getD_mem_of_lt hi .nan)
  have hsub_eq := maskSelect_eq_specCategorySubset target feature
    ((np_unique feature).getD i .nan) hlen
  have hsubne : specCategorySubset target feature
      ((np_unique feature).getD i .nan) ≠ [] :=
    hsub_eq ▸ maskSelect_ne_nil target feature _ hlen hc_mem
  refine ⟨npRandomChoice (specCategorySubset target feature
      ((np_unique feature).getD i .nan))
      (n_boots * (specCategorySubset target feature
        ((np_unique feature).getD i .nan)).length) draws off2,
    npRandomChoice_length _ _ _ _,
    npRandomChoice_mem hsubne _ _ _,
    fun j _ => reshapeColumn_length _ _ _ _,
    fun k hk => reshapeColumn_partition _ hn hk,
    ?_⟩
  rw [hoff, hsub_eq]
  rfl

/-- C5: when `n_boots ≥ 1` is supplied (aligned numeric NaN-free inputs,
recognized method, at most 15 categories), for each category the call
draws `n_boots * subset_size` samples with replacement from that
category's target subset, partitions them into `n_boots` resamples of
`subset_size` draws each (sample `k` lands in resample `k % n_boots` at
slot `k / n_boots`), computes the plain mean of each resample — also when
`method = "median"` — and returns the 2.5th and 97.5th percentiles of the
`n_boots` resample means as the interval bounds. -/
theorem C5_bootstrap_procedure (target feature : List PyVal) (method : String)
    (n_boots : ℕ) (draws : ℕ → ℕ)
    (hlen : target.length = feature.length)
    (ht : target.all PyVal.isNum = true) (hf : feature.all PyVal.isNum = true)
    (hm : method = "mean" ∨ method = "median")
    (hcats : (np_unique feature).length ≤ 15)
    (hn : 0 < n_boots) :
    ∃ res ivs,
      plot_target_feature_distribution target feature method n_boots draws
        = .ok res ∧
      res.percentile = some ivs ∧
      ivs.length = (np_unique feature).length ∧
      ∀ i, i < (np_unique feature).length →
        ∃ boots_sample : List ℚ,
          boots_sample.length = n_boots * (specCategorySubset target feature
            ((np_unique feature).getD i .nan)).length ∧
          (∀ x ∈ boots_sample, x ∈ specCategorySubset target feature
            ((np_unique feature).getD i .nan)) ∧
          (∀ j, j < n_boots →
            (reshapeColumn boots_sample n_boots (specCategorySubset target
              feature ((np_unique feature).getD i .nan)).length j).length =
              (specCategorySubset target feature
                ((np_unique feature).getD i .nan)).length) ∧
          (∀ k, k < n_boots * (specCategorySubset target feature
              ((np_unique feature).getD i .nan)).length →
            (reshapeColumn boots_sample n_boots (specCategorySubset target
                feature ((np_unique feature).getD i .nan)).length
                (k % n_boots)).getD (k / n_boots) 0 =
              boots_sample.getD k 0) ∧
          ivs.getD i (0, 0) =
            (npPercentile ((List.range n_boots).map
              (fun j => npMean (reshapeColumn boots_sample n_boots
                (specCategorySubset target feature
                  ((np_unique feature).getD i .nan)).length j))) (5/2),
             npPercentile ((List.range n_boots).map
              (fun j => npMean (reshapeColumn boots_sample n_boots
                (specCategorySubset target feature
                  ((np_unique feature).getD i .nan)).length j))) (195/2)) :=
  bootstrap_run_spec target feature method n_boots draws hlen ht hf hm hcats hn

/-- C5 witness: a two-element single-category input with `n_boots = 1`. -/
theorem C5_bootstrap_procedure_witness :
    ∃ res ivs,
      plot_target_feature_distribution [.num 0, .num 100] [.num 1, .num 1]
        "mean" 1 (fun _ => 0) = .ok res ∧
      res.percentile = some ivs ∧ ivs.length = 1 := by
  obtain ⟨res, ivs, h1, h2, h3, _⟩ := C5_bootstrap_procedure
    [.num 0, .num 100] [.num 1, .num 1] "mean" 1 (fun _ => 0) rfl
    (by decide) (by decide) (Or.inl rfl) (by decide) (by decide)
  refine ⟨res, ivs, h1, h2, ?_⟩
  rw [h3]
  decide

/-- C6: when `n_boots ≥ 1` is supplied (aligned numeric NaN-free inputs,
recognized method, at most 15 categories), each category's returned
interval satisfies lower ≤ upper, and both bounds lie between any lower
bound `m` and any upper bound `M` of that category's target subset — in
particular inside `[min, max]` of the subset. -/
theorem C6_interval_bounds (target feature : List PyVal) (method : String)
    (n_boots : ℕ) (draws : ℕ → ℕ)
    (hlen : target.length = feature.length)
    (ht : target.all PyVal.isNum = true) (hf : feature.all PyVal.isNum = true)
    (hm : method = "mean" ∨ method = "median")
    (hcats : (np_unique feature).length ≤ 15)
    (hn : 0 < n_boots) :
    ∃ res ivs,
      plot_target_feature_distribution target feature method n_boots draws
        = .ok res ∧
      res.percentile = some ivs ∧
      ivs.length = (np_unique feature).length ∧
      ∀ i, i < (np_unique feature).length → ∀ m M,
        (∀ x ∈ specCategorySubset target feature
          ((np_unique feature).getD i .nan), m ≤ x) →
        (∀ x ∈ specCategorySubset target feature
          ((np_unique feature).getD i .nan), x ≤ M) →
        (ivs.getD i (0, 0)).1 ≤ (ivs.getD i (0, 0)).2 ∧
        m ≤ (ivs.getD i (0, 0)).1 ∧ (ivs.getD i (0, 0)).1 ≤ M ∧
        m ≤ (ivs.getD i (0, 0)).2 ∧ (ivs.getD i (0, 0)).2 ≤ M := by
  obtain ⟨res, ivs, h1, h2, h3, h4⟩ := bootstrap_run_spec target feature method
    n_boots draws hlen ht hf hm hcats hn
  refine ⟨res, ivs, h1, h2, h3, ?_⟩
  intro i hi m M hmB hMB
  obtain ⟨flat, hflen, hfmem, _, _, hiv⟩ := h4 i hi
  have hc_mem : (np_unique feature).getD i .nan ∈ feature :=
    mem_np_unique.mp (getD_mem_of_lt hi .nan)
  have hsubne : specCategorySubset target feature
      ((np_unique feature).getD i .nan) ≠ [] :=
    (maskSelect_eq_specCategorySubset target feature _ hlen) ▸
      maskSelect_ne_nil target feature _ hlen hc_mem
  have hs_pos : 0 < (specCategorySubset target feature
      ((np_unique feature).getD i .nan)).length :=
    List.length_pos.mpr hsubne
  have hLne : (List.range n_boots).map
      (fun j => npMean (reshapeColumn flat n_boots (specCategorySubset target
        feature ((np_unique feature).getD i .nan)).length j)) ≠ [] := by
    intro h
    have hL : ((List.range n_boots).map
        (fun j => npMean (reshapeColumn flat n_boots (specCategorySubset
          target feature ((np_unique feature).getD i .nan)).length j))).length
        = n_boots := by
      simp
    rw [h] at hL
    simp at hL
    omega
  have hLm : ∀ y ∈ (List.range n_boots).map
      (fun j => npMean (reshapeColumn flat n_boots (specCategorySubset target
        feature ((np_unique feature).getD i .nan)).length j)),
      m ≤ y ∧ y ≤ M := by
    intro y hy
    exact columnMeans_mem_bounds hs_pos hflen
      (fun x hx => hmB x (hfmem x hx)) (fun x hx => hMB x (hfmem x hx)) y hy
  have hmono := npPercentile_mono hLne
    (by norm_num : (0:ℚ) ≤ 5/2) (by norm_num : (5:ℚ)/2 ≤ 195/2)
    (by norm_num : (195:ℚ)/2 ≤ 100)
  have hb1 := npPercentile_bounds hLne
    (by norm_num : (0:ℚ) ≤ 5/2) (by norm_num : (5:ℚ)/2 ≤ 100)
    (fun y hy => (hLm y hy).1) (fun y hy => (hLm y hy).2)
  have hb2 := npPercentile_bounds hLne
    (by norm_num : (0:ℚ) ≤ 195/2) (by norm_num : (195:ℚ)/2 ≤ 100)
    (fun y hy => (hLm y hy).1) (fun y hy => (hLm y hy).2)
  rw [hiv]
  exact ⟨hmono, hb1.1, hb1.2, hb2.1, hb2.2⟩

/-- C6 witness: two draws per resample from the subset `[0, 100]` with
`n_boots = 2` and `method = "median"`: the interval is ordered and lies
inside `[0, 100]`. -/
theorem C6_interval_bounds_witness :
    ∃ res ivs,
      plot_target_feature_distribution [.num 0, .num 100] [.num 2, .num 2]
        "median" 2 (fun k => k) = .ok res ∧
      res.percentile = some ivs ∧
      0 ≤ (ivs.getD 0 (0, 0)).1 ∧
      (ivs.getD 0 (0, 0)).1 ≤ (ivs.getD 0 (0, 0)).2 ∧
      (ivs.getD 0 (0, 0)).2 ≤ 100 := by
  obtain ⟨res, ivs, h1, h2, _, h4⟩ := C6_interval_bounds [.num 0, .num 100]
    [.num 2, .num 2] "median" 2 (fun k => k) rfl (by decide) (by decide)
    (Or.inr rfl) (by decide) (by decide)
  have hm0 : ∀ x ∈ specCategorySubset [PyVal.num 0, PyVal.num 100]
      [PyVal.num 2, PyVal.num 2]
      ((np_unique [PyVal.num 2, PyVal.num 2]).getD 0 .nan), (0:ℚ) ≤ x := by
    decide
  have hM0 : ∀ x ∈ specCategorySubset [PyVal.num 0, PyVal.num 100]
      [PyVal.num 2, PyVal.num 2]
      ((np_unique [PyVal.num 2, PyVal.num 2]).getD 0 .nan), x ≤ (100:ℚ) := by
    decide
  have h5 := h4 0 (by decide) 0 100 hm0 hM0
  exact ⟨res, ivs, h1, h2, h5.2.1, h5.1, h5.2.2.2.2⟩

end MlTooling
